import Mathlib

/-!
Verification of the image-cache-service resizer core.

The Go sources under internal/resizers are embedded shallowly: the lru cache,
the cacheDeadline timestamp table and the workers registry become association
lists inside a `Service` record; goroutine side effects become explicit event
lists; the network fetch plus jpeg transform pipeline, the sha256-based key
digest and the select races are external collaborators passed as parameters,
exactly the boundaries the repository itself treats as external.
-/

namespace Resizers

/-- Image bytes, a byte slice modelled as a list of byte values. -/
abbrev Bytes := List Nat

/-- Errors of the service: the errContextCancelled sentinel, failures of the
fetch and transform collaborators, and the wrapping errors the code builds with
fmt.Errorf at each call site (resizeAndCache, GetImage, ProcessResizes). -/
inductive GoError
  | contextCancelled
  | fetchFailed
  | decodeFailed
  | encodeFailed
  | wrapResize (e : GoError)
  | wrapCheckInProgress (e : GoError)
  | wrapResizeRequest (e : GoError)
deriving DecidableEq

/-- Go errors.Is on this error type: the target is the error itself or occurs
somewhere along its wrap chain. -/
def errorsIs : GoError → GoError → Bool
  | GoError.contextCancelled, t => decide (GoError.contextCancelled = t)
  | GoError.fetchFailed, t => decide (GoError.fetchFailed = t)
  | GoError.decodeFailed, t => decide (GoError.decodeFailed = t)
  | GoError.encodeFailed, t => decide (GoError.encodeFailed = t)
  | GoError.wrapResize e, t => decide (GoError.wrapResize e = t) || errorsIs e t
  | GoError.wrapCheckInProgress e, t =>
      decide (GoError.wrapCheckInProgress e = t) || errorsIs e t
  | GoError.wrapResizeRequest e, t =>
      decide (GoError.wrapResizeRequest e = t) || errorsIs e t

/-- Values stored in the lru cache. Go stores `any` and GetImage type-asserts to
a byte slice, so the model distinguishes byte values from any other shape. -/
inductive CacheValue
  | bytes (b : Bytes)
  | other
deriving DecidableEq

/-- Values stored in the workers sync.Map. makeWorkerResizeImage stores a
WorkerResizeResult, modelled by the identity of its channel pair;
waitIfImageIsStillInProgress type-asserts and treats any other shape
defensively. -/
inductive RegValue
  | worker (id : Nat)
  | invalid
deriving DecidableEq

/-- Lookup in a string-keyed association list; models reads of the lru cache,
the workers sync.Map and the cacheDeadline sync.Map. -/
def alLookup {α : Type} : List (String × α) → String → Option α
  | [], _ => none
  | (k2, v) :: rest, k => if k2 = k then some v else alLookup rest k

/-- Contains, as the lru cache exposes it. -/
def alContains {α : Type} (l : List (String × α)) (k : String) : Bool :=
  (alLookup l k).isSome

/-- Store or Add: replaces the value under an existing key, else appends. -/
def alInsert {α : Type} : List (String × α) → String → α → List (String × α)
  | [], k, v => [(k, v)]
  | (k2, v2) :: rest, k, v =>
      if k2 = k then (k, v) :: rest else (k2, v2) :: alInsert rest k v

/-- Delete or Remove: drops the entry under the key, a no-op when absent. -/
def alErase {α : Type} : List (String × α) → String → List (String × α)
  | [], _ => []
  | (k2, v2) :: rest, k => if k2 = k then rest else (k2, v2) :: alErase rest k

/-- State of the resizer Service: the lru cache contents, the cacheDeadline
timestamp table and the workers job registry. -/
structure Service where
  cache : List (String × CacheValue)
  cacheDeadline : List (String × Nat)
  workers : List (String × RegValue)
deriving DecidableEq

def proto : String := "http://"

def hostport : String := "localhost:8080"

def success : String := "success"

def inProgress : String := "in-progress"

def failure : String := "failure"

def imageURLOutputPath : String := "/v1/image/"

def jpegExtension : String := ".jpeg"

/-- Cache key derivation; genID, the base64 url-encoding of a sha256 digest, is
the deterministic external digest collaborator, passed as a parameter. -/
def genKey (genID : String → String) (url : String) : String :=
  imageURLOutputPath ++ genID url ++ jpegExtension

/-- Servable URL built from a key. -/
def newURL (key : String) : String :=
  proto ++ hostport ++ key

/-- Parsed resize request, as the handler hands it to the service. -/
structure ResizeRequest where
  Async : Bool
  URLs : List String
  Width : Nat
  Height : Nat
deriving DecidableEq

/-- Per-URL outcome of ProcessResizes; an unset URL field is the empty string,
an unset Cached field is false, matching the Go zero values. -/
structure ResizeResult where
  Result : String
  URL : String
  Cached : Bool
deriving DecidableEq

/-- Data one resize job carries. -/
structure ResizeData where
  Key : String
  URL : String
  Width : Nat
  Height : Nat
deriving DecidableEq

/-- Fetch plus transform collaborator (fetchAndResize): returns the resized
bytes for the job, or the error of the failing step. -/
abbrev FetchTransform := ResizeData → Except GoError Bytes

/-- Which party performs a registry deletion. -/
inductive Deleter
  | workerItself
  | cleanupConsumer
deriving DecidableEq

/-- Side effects a worker performs, in execution order. signalDone is the
deferred Close of the done channel; bridgePush is a send of the key on the
worker value channel toward the fan-in bridge. -/
inductive Event
  | cacheAdd (key : String) (data : Bytes)
  | timestampStore (key : String) (t : Nat)
  | registryDelete (key : String) (who : Deleter)
  | signalDone (key : String)
  | bridgePush (key : String)
deriving DecidableEq

/-- Application of one effect to the service state; the completion signal and a
bridge send do not change the three tables. -/
def applyEvent (st : Service) : Event → Service
  | Event.cacheAdd k d => { st with cache := alInsert st.cache k (CacheValue.bytes d) }
  | Event.timestampStore k t =>
      { st with cacheDeadline := alInsert st.cacheDeadline k t }
  | Event.registryDelete k _ => { st with workers := alErase st.workers k }
  | Event.signalDone _ => st
  | Event.bridgePush _ => st

def applyEvents (st : Service) (evs : List Event) : Service :=
  evs.foldl applyEvent st

/-- Effects of resizeAndCache: on collaborator failure it returns the wrapped
error and touches nothing; on success it adds the bytes under the key and
stores the current time in the cacheDeadline table. -/
def resizeAndCacheEvents (f : FetchTransform) (now : Nat) (request : ResizeData) :
    Option GoError × List Event :=
  match f request with
  | Except.error e => (some (GoError.wrapResize e), [])
  | Except.ok data =>
      (none, [Event.cacheAdd request.Key data, Event.timestampStore request.Key now])

/-- resizeAndCache as a state transformer, the effects applied in order. -/
def resizeAndCache (f : FetchTransform) (now : Nat) (st : Service)
    (request : ResizeData) : Option GoError × Service :=
  let (err, evs) := resizeAndCacheEvents f now request
  (err, applyEvents st evs)

/-- Body of one iteration of the processResizesSync loop: a cached key is
answered from the cache; otherwise the job runs inline via resizeAndCache, a
failure yielding the failure result with the Go zero values for URL and
Cached. -/
def syncStep (genID : String → String) (f : FetchTransform) (now : Nat)
    (w hg : Nat) (st : Service) (url : String) : ResizeResult × Service :=
  let key := genKey genID url
  let nu := newURL key
  if alContains st.cache key then
    (ResizeResult.mk success nu true, st)
  else
    let (err, st2) := resizeAndCache f now st (ResizeData.mk key url w hg)
    match err with
    | some _ => (ResizeResult.mk failure "" false, st2)
    | none => (ResizeResult.mk success nu false, st2)

/-- The processResizesSync loop over the request URLs, threading the state. -/
def syncLoop (genID : String → String) (f : FetchTransform) (now : Nat)
    (w hg : Nat) : Service → List String → List ResizeResult × Service
  | st, [] => ([], st)
  | st, url :: rest =>
      let (r, st2) := syncStep genID f now w hg st url
      let (rs, st3) := syncLoop genID f now w hg st2 rest
      (r :: rs, st3)

/-- processResizesSync: one result per URL, and the nil error of the source. -/
def processResizesSync (genID : String → String) (f : FetchTransform) (now : Nat)
    (st : Service) (request : ResizeRequest) :
    (List ResizeResult × Option GoError) × Service :=
  let (rs, st2) := syncLoop genID f now request.Width request.Height st request.URLs
  ((rs, none), st2)

/-- makeWorkerResizeImage: spawns one worker for the job and stores its handle
in the workers registry under the key, unconditionally. The second component
records the dispatched job, the third the streams pushed into the fan-in
bridge: the watchProcess call is commented out in the source, so no stream is
ever pushed. -/
def makeWorkerResizeImage (st : Service) (wid : Nat) (resizeData : ResizeData) :
    Service × List ResizeData × List (List String) :=
  ({ st with workers := alInsert st.workers resizeData.Key (RegValue.worker wid) },
    [resizeData], [])

/-- Body of one iteration of the processResizesAsync loop: only the cache is
consulted; an uncached key always goes to makeWorkerResizeImage. -/
def asyncStep (genID : String → String) (wid : Nat) (w hg : Nat) (st : Service)
    (url : String) : ResizeResult × Service × List ResizeData :=
  let key := genKey genID url
  let nu := newURL key
  if alContains st.cache key then
    (ResizeResult.mk success nu true, st, [])
  else
    let (st2, dispatched, _streams) :=
      makeWorkerResizeImage st wid (ResizeData.mk key url w hg)
    (ResizeResult.mk inProgress nu false, st2, dispatched)

/-- The processResizesAsync loop, threading the state, a fresh worker handle
counter and the accumulated dispatched jobs. -/
def asyncLoop (genID : String → String) (w hg : Nat) :
    Service → Nat → List String → List ResizeResult × Service × List ResizeData
  | st, _, [] => ([], st, [])
  | st, wid, url :: rest =>
      let (r, st2, d1) := asyncStep genID wid w hg st url
      let (rs, st3, d2) := asyncLoop genID w hg st2 (wid + 1) rest
      (r :: rs, st3, d1 ++ d2)

/-- processResizesAsync: one result per URL, the nil error of the source, the
final state and the jobs dispatched to workers. -/
def processResizesAsync (genID : String → String) (st : Service)
    (request : ResizeRequest) :
    (List ResizeResult × Option GoError) × Service × List ResizeData :=
  let (rs, st2, dispatched) :=
    asyncLoop genID request.Width request.Height st 0 request.URLs
  ((rs, none), st2, dispatched)

/-- ProcessResizes: dispatch on the Async flag; a non-nil inner error would be
wrapped, the nil results returned, exactly as in the source. -/
def ProcessResizes (genID : String → String) (f : FetchTransform) (now : Nat)
    (st : Service) (request : ResizeRequest) :
    (Option (List ResizeResult) × Option GoError) × Service × List ResizeData :=
  let ((result, err), st2, dispatched) :=
    match request.Async with
    | true => processResizesAsync genID st request
    | false =>
        let ((r, e), s) := processResizesSync genID f now st request
        ((r, e), s, ([] : List ResizeData))
  match err with
  | some e => ((none, some (GoError.wrapResizeRequest e)), st2, dispatched)
  | none => ((some result, none), st2, dispatched)

/-- Values the worker sends on its value channel: the send of the key is
commented out in the source, so the stream is empty. -/
def workerValueStream (_request : ResizeData) : List String := []

/-- Effects of the goroutine body of newResizeWorker. Its context is
context.Background, never done, so the default branch always runs: resizeAndCache
(its error only logged), then the worker deletes its own key from the workers
registry, then the deferred Close fires the done signal. Nothing is pushed
toward the bridge. -/
def workerBodyEvents (f : FetchTransform) (now : Nat) (request : ResizeData) :
    List Event :=
  let (_err, evs) := resizeAndCacheEvents f now request
  evs ++ [Event.registryDelete request.Key Deleter.workerItself,
    Event.signalDone request.Key]

/-- getWorkerWorkStream: the bridge relays, in order, every value of every
stream pushed into workerResultStream. -/
def getWorkerWorkStream (pushed : List (List String)) : List String :=
  pushed.flatten

/-- startWorkerCleaner: the single cleanup consumer deletes from the workers
registry each key read off the merged bridge output. -/
def startWorkerCleaner (st : Service) (merged : List String) : Service :=
  merged.foldl (fun s k => { s with workers := alErase s.workers k }) st

/-- Body of one Range call of the eviction sweep, translated as written: an
entry whose insertionTime plus the 5 unit TTL lies strictly before now is
skipped; otherwise the key is removed from the cache and, when the cache
removal reports the key was present, from the cacheDeadline table. -/
def sweepEntry (now : Nat) (st : Service) (kv : String × Nat) : Service :=
  let calculatedTime := kv.2 + 5
  if calculatedTime < now then st
  else if alContains st.cache kv.1 then
    { st with
        cache := alErase st.cache kv.1,
        cacheDeadline := alErase st.cacheDeadline kv.1 }
  else st

/-- One tick of the StartCacheEviction loop: Range over the tracked timestamp
entries, applying sweepEntry to each. -/
def sweepTick (now : Nat) (st : Service) : Service :=
  st.cacheDeadline.foldl (sweepEntry now) st

/-- Outcome of the select race inside waitIfImageIsStillInProgress: which of
the caller context done channel and the worker done channel fires first. -/
inductive RaceOutcome
  | ctxDoneFirst
  | jobDoneFirst
deriving DecidableEq

/-- waitIfImageIsStillInProgress: no registered worker, or a registry value of
an unexpected shape, returns nil at once; a registered worker makes the call
wait on the race, the context side yielding errContextCancelled. -/
def waitIfImageIsStillInProgress (st : Service) (key : String)
    (race : RaceOutcome) : Option GoError :=
  match alLookup st.workers key with
  | none => none
  | some RegValue.invalid => none
  | some (RegValue.worker _) =>
      match race with
      | RaceOutcome.ctxDoneFirst => some GoError.contextCancelled
      | RaceOutcome.jobDoneFirst => none

/-- Result of GetImage: the bytes and the error returned, plus whether the call
reached the cache read. -/
structure GetImageOutcome where
  data : Option Bytes
  err : Option GoError
  cacheRead : Bool
deriving DecidableEq

/-- GetImage: wait on an in-flight job; a cancellation returns the sentinel
before the cache read; any other non-nil wait error would be wrapped; then the
cache is read, absence and a non-byte stored shape both yielding nil bytes with
nil error. -/
def GetImage (st : Service) (key : String) (race : RaceOutcome) : GetImageOutcome :=
  match waitIfImageIsStillInProgress st key race with
  | some e =>
      if errorsIs e GoError.contextCancelled then
        GetImageOutcome.mk none (some GoError.contextCancelled) false
      else
        GetImageOutcome.mk none (some (GoError.wrapCheckInProgress e)) false
  | none =>
      match alLookup st.cache key with
      | none => GetImageOutcome.mk none none true
      | some (CacheValue.bytes b) => GetImageOutcome.mk (some b) none true
      | some CacheValue.other => GetImageOutcome.mk none none true

/-- Go strconv.ParseBool: exactly these forms parse; anything else errors. -/
def parseBoolGo (s : String) : Option Bool :=
  if s = "1" ∨ s = "t" ∨ s = "T" ∨ s = "true" ∨ s = "TRUE" ∨ s = "True" then
    some true
  else if s = "0" ∨ s = "f" ∨ s = "F" ∨ s = "false" ∨ s = "FALSE" ∨ s = "False" then
    some false
  else none

/-- Async flag handling of MakeResizeHandler: an absent query parameter keeps
the zero value false; a present one is passed to ParseBool whose error is
ignored, so an invalid value also leaves the zero value false. -/
def parseAsyncFlag (param : Option String) : Bool :=
  match param with
  | none => false
  | some v => (parseBoolGo v).getD false

/-- Sample fetch collaborator that always fails at the fetch step. -/
def failF : FetchTransform := fun _ => Except.error GoError.fetchFailed

/-- Sample fetch collaborator that always succeeds with one byte. -/
def okF : FetchTransform := fun _ => Except.ok [1]

/-- Sample job for key k. -/
def jobK : ResizeData := ResizeData.mk "k" "u" 1 1

/-- Service with one in-flight worker registered under key k. -/
def svcK : Service := Service.mk [] [] [("k", RegValue.worker 0)]

/-- Empty service state. -/
def svc0 : Service := Service.mk [] [] []

/-- Service whose cache holds the derived key of url u under the identity
digest collaborator. -/
def svcCached : Service :=
  Service.mk [("/v1/image/u.jpeg", CacheValue.bytes [1])] [] []

end Resizers

namespace Resizers

/-- Shape lemma: the wait step returns nil or the cancellation sentinel and
nothing else, by cases over the registry entry and the race. -/
theorem waitShape (st : Service) (key : String) (race : RaceOutcome) :
    waitIfImageIsStillInProgress st key race = none ∨
      waitIfImageIsStillInProgress st key race = some GoError.contextCancelled := by
  unfold waitIfImageIsStillInProgress
  rcases alLookup st.workers key with _ | v
  · exact Or.inl rfl
  · cases v with
    | worker id =>
      cases race
      · exact Or.inr rfl
      · exact Or.inl rfl
    | invalid => exact Or.inl rfl

/-- C2: the sweep condition of StartCacheEviction is inverted. With key k
inserted at time 0 and TTL 5, a tick at time 10 (TTL long elapsed) leaves the
key in both the cache and the timestamp table, while a tick at time 3 (TTL not
yet elapsed) removes it from both. -/
theorem c2_sweep_condition_inverted :
    sweepTick 10 (Service.mk [("k", CacheValue.bytes [1])] [("k", 0)] []) =
      Service.mk [("k", CacheValue.bytes [1])] [("k", 0)] [] ∧
    sweepTick 3 (Service.mk [("k", CacheValue.bytes [1])] [("k", 0)] []) =
      Service.mk [] [] [] := by
  exact ⟨by decide, by decide⟩

/-- C3: counterexample. A successful job for key k produces the worker event
trace as written in the source: the registry deletion is performed by the
worker itself, and nothing is ever pushed into the fan-in bridge, so the
cleanup consumer, fed the empty merged stream, deletes nothing. -/
theorem c3_counterexample :
    workerBodyEvents okF 0 jobK =
      [Event.cacheAdd "k" [1], Event.timestampStore "k" 0,
        Event.registryDelete "k" Deleter.workerItself, Event.signalDone "k"] ∧
    Event.registryDelete "k" Deleter.workerItself ∈ workerBodyEvents okF 0 jobK ∧
    getWorkerWorkStream [] = [] ∧
    startWorkerCleaner svcK (getWorkerWorkStream []) = svcK ∧
    (makeWorkerResizeImage svc0 0 jobK).2.2 = [] := by
  refine ⟨by decide, by decide, rfl, rfl, rfl⟩

/-- C3 amended: deregistration is performed by the worker itself, not by the
cleanup consumer. Every finished job's trace contains its own registry
deletion, every registry deletion in the trace is by the worker, no value is
ever pushed toward the bridge (the send and the watchProcess call are commented
out in the source), so the cleanup consumer never receives a notification. -/
theorem c3_amended_worker_self_deregisters (f : FetchTransform) (now : Nat)
    (request : ResizeData) (st : Service) (wid : Nat) (rd : ResizeData) :
    Event.registryDelete request.Key Deleter.workerItself ∈
      workerBodyEvents f now request ∧
    (∀ key who, Event.registryDelete key who ∈ workerBodyEvents f now request →
        key = request.Key ∧ who = Deleter.workerItself) ∧
    (∀ key, Event.bridgePush key ∉ workerBodyEvents f now request) ∧
    workerValueStream request = [] ∧
    (makeWorkerResizeImage st wid rd).2.2 = [] := by
  rcases hf : f request with e | data <;>
    simp [workerBodyEvents, resizeAndCacheEvents, hf, workerValueStream,
      makeWorkerResizeImage]

/-- C4: when a valid in-flight job is registered for the key and the caller
context fires before the job's done channel, GetImage returns the
distinguishable cancellation sentinel with no bytes and without reaching the
cache read, whatever the cache holds. -/
theorem c4_cancelled_before_cache (st : Service) (key : String) (wid : Nat)
    (h : alLookup st.workers key = some (RegValue.worker wid)) :
    GetImage st key RaceOutcome.ctxDoneFirst =
      GetImageOutcome.mk none (some GoError.contextCancelled) false := by
  simp [GetImage, waitIfImageIsStillInProgress, h, errorsIs]

/-- C4 witness: the theorem applied to a service with one in-flight job. -/
theorem c4_witness :
    GetImage svcK "k" RaceOutcome.ctxDoneFirst =
      GetImageOutcome.mk none (some GoError.contextCancelled) false :=
  c4_cancelled_before_cache svcK "k" 0 (by decide)

/-- C5: a job whose fetch or transform fails leaves the cache and the timestamp
table untouched, yet its event trace still removes the key from the registry by
the worker, and still fires the completion signal, as on success. -/
theorem c5_failed_job_frame (f : FetchTransform) (now : Nat)
    (request : ResizeData) (st : Service) (e : GoError)
    (hf : f request = Except.error e) :
    (applyEvents st (workerBodyEvents f now request)).cache = st.cache ∧
    (applyEvents st (workerBodyEvents f now request)).cacheDeadline =
      st.cacheDeadline ∧
    (applyEvents st (workerBodyEvents f now request)).workers =
      alErase st.workers request.Key ∧
    Event.signalDone request.Key ∈ workerBodyEvents f now request ∧
    Event.registryDelete request.Key Deleter.workerItself ∈
      workerBodyEvents f now request ∧
    (∀ k d, Event.cacheAdd k d ∉ workerBodyEvents f now request) ∧
    (∀ k t, Event.timestampStore k t ∉ workerBodyEvents f now request) := by
  simp [workerBodyEvents, resizeAndCacheEvents, hf, applyEvents, applyEvent]

/-- C5 witness: the theorem applied to the always-failing fetch collaborator,
job k and a service with k in flight. -/
theorem c5_witness :
    (applyEvents svcK (workerBodyEvents failF 0 jobK)).cache = svcK.cache ∧
    (applyEvents svcK (workerBodyEvents failF 0 jobK)).cacheDeadline =
      svcK.cacheDeadline ∧
    (applyEvents svcK (workerBodyEvents failF 0 jobK)).workers =
      alErase svcK.workers jobK.Key ∧
    Event.signalDone jobK.Key ∈ workerBodyEvents failF 0 jobK ∧
    Event.registryDelete jobK.Key Deleter.workerItself ∈
      workerBodyEvents failF 0 jobK ∧
    (∀ k d, Event.cacheAdd k d ∉ workerBodyEvents failF 0 jobK) ∧
    (∀ k t, Event.timestampStore k t ∉ workerBodyEvents failF 0 jobK) :=
  c5_failed_job_frame failF 0 jobK svcK GoError.fetchFailed rfl

/-- C7: an asynchronous request for an already-cached key is answered from the
cache with the success result and cached true, leaving the state untouched and
dispatching no worker. -/
theorem c7_cached_async_idempotent (genID : String → String) (wid w hg : Nat)
    (st : Service) (url : String)
    (h : alContains st.cache (genKey genID url) = true) :
    asyncStep genID wid w hg st url =
      (ResizeResult.mk success (newURL (genKey genID url)) true, st, []) := by
  simp [asyncStep, h]

/-- C7 witness: the theorem applied to the cached sample state. -/
theorem c7_witness :
    asyncStep (fun s => s) 0 1 1 svcCached "u" =
      (ResizeResult.mk success (newURL (genKey (fun s => s) "u")) true,
        svcCached, []) :=
  c7_cached_async_idempotent (fun s => s) 0 1 1 svcCached "u" (by decide)

/-- C8: a GetImage call whose wait step returned nil reaches the cache read,
and both an absent key and a stored value of an unexpected shape yield nil
bytes with nil error, the not-found outcome distinct from a failure. -/
theorem c8_absent_is_not_found (st : Service) (key : String)
    (race : RaceOutcome) :
    (waitIfImageIsStillInProgress st key race = none →
      alLookup st.cache key = none →
      GetImage st key race = GetImageOutcome.mk none none true) ∧
    (waitIfImageIsStillInProgress st key race = none →
      alLookup st.cache key = some CacheValue.other →
      GetImage st key race = GetImageOutcome.mk none none true) := by
  constructor <;> intro hw hc <;> simp [GetImage, hw, hc]

/-- C10: GetImage returns a non-nil error only as the exact cancellation
sentinel; the wrapped error branch is unreachable because the wait step only
ever returns nil or the sentinel. -/
theorem c10_error_only_cancellation (st : Service) (key : String)
    (race : RaceOutcome) :
    ((GetImage st key race).err = none ∨
      (GetImage st key race).err = some GoError.contextCancelled) ∧
    (∀ e : GoError,
      (GetImage st key race).err ≠ some (GoError.wrapCheckInProgress e)) ∧
    (waitIfImageIsStillInProgress st key race = none ∨
      waitIfImageIsStillInProgress st key race = some GoError.contextCancelled) := by
  rcases waitShape st key race with hw | hw
  · have herr : (GetImage st key race).err = none := by
      rcases hc : alLookup st.cache key with _ | v
      · simp [GetImage, hw, hc]
      · cases v <;> simp [GetImage, hw, hc]
    exact ⟨Or.inl herr, fun e => by simp [herr], Or.inl hw⟩
  · have herr : (GetImage st key race).err = some GoError.contextCancelled := by
      simp [GetImage, hw, errorsIs]
    exact ⟨Or.inr herr, fun e => by simp [herr], Or.inr hw⟩

end Resizers

namespace Resizers

/-- Frame lemma: the asynchronous dispatch loop never touches the cache; only
its workers registry and dispatched jobs change. -/
theorem asyncLoop_cache_eq (genID : String → String) (w hg : Nat) :
    ∀ (urls : List String) (st : Service) (wid : Nat),
      ((asyncLoop genID w hg st wid urls).2.1).cache = st.cache := by
  intro urls
  induction urls with
  | nil => intro st wid; rfl
  | cons url rest ih =>
    intro st wid
    by_cases h : alContains st.cache (genKey genID url) = true
    · simp [asyncLoop, asyncStep, h, ih]
    · simp [asyncLoop, asyncStep, h, makeWorkerResizeImage, ih]

/-- Dispatch lemma: the jobs the asynchronous loop hands to workers are exactly
one job per URL occurrence whose key the cache does not hold, whatever the
workers registry contains at the start. -/
theorem asyncLoop_dispatched_eq (genID : String → String) (w hg : Nat) :
    ∀ (urls : List String) (st : Service) (wid : Nat),
      (asyncLoop genID w hg st wid urls).2.2 =
        (urls.filter (fun u => !(alContains st.cache (genKey genID u)))).map
          (fun u => ResizeData.mk (genKey genID u) u w hg) := by
  intro urls
  induction urls with
  | nil => intro st wid; rfl
  | cons url rest ih =>
    intro st wid
    by_cases h : alContains st.cache (genKey genID url) = true
    · simp [asyncLoop, asyncStep, h, ih]
    · simp [asyncLoop, asyncStep, h, makeWorkerResizeImage, ih]

/-- C1: counterexample. One asynchronous batch repeating the same URL twice
against the empty service dispatches two workers for the same key, not one:
processResizesAsync consults only the cache, never the registry of in-flight
jobs, so a request arriving while a job is registered cannot join it. -/
theorem c1_counterexample :
    ((processResizesAsync (fun s => s) svc0
        (ResizeRequest.mk true ["u", "u"] 1 1)).2.2).length = 2 ∧
    ((processResizesAsync (fun s => s) svc0
        (ResizeRequest.mk true ["u", "u"] 1 1)).2.2).map ResizeData.Key =
      ["/v1/image/u.jpeg", "/v1/image/u.jpeg"] ∧
    ¬ ((processResizesAsync (fun s => s) svc0
        (ResizeRequest.mk true ["u", "u"] 1 1)).2.2).length = 1 := by
  refine ⟨by decide, by decide, by decide⟩

/-- C1 amended: an asynchronous request dispatches a fresh worker for every
uncached URL occurrence, regardless of any registered in-flight job: the
dispatched jobs are exactly the derived jobs of the URLs whose key is absent
from the cache, for every starting registry content. -/
theorem c1_amended_one_worker_per_uncached_occurrence (genID : String → String)
    (st : Service) (request : ResizeRequest) :
    (processResizesAsync genID st request).2.2 =
      (request.URLs.filter (fun u => !(alContains st.cache (genKey genID u)))).map
        (fun u => ResizeData.mk (genKey genID u) u request.Width request.Height) := by
  unfold processResizesAsync
  rcases hal : asyncLoop genID request.Width request.Height st 0 request.URLs
    with ⟨rs, st2, d⟩
  have := asyncLoop_dispatched_eq genID request.Width request.Height
    request.URLs st 0
  rw [hal] at this
  simpa using this

/-- Length lemma: the synchronous loop emits one result per URL. -/
theorem syncLoop_length (genID : String → String) (f : FetchTransform)
    (now w hg : Nat) :
    ∀ (urls : List String) (st : Service),
      ((syncLoop genID f now w hg st urls).1).length = urls.length := by
  intro urls
  induction urls with
  | nil => intro st; rfl
  | cons url rest ih =>
    intro st
    rcases hstep : syncStep genID f now w hg st url with ⟨r, st2⟩
    simp [syncLoop, hstep, ih]

/-- Order lemma: the i-th synchronous result is the step outcome for the i-th
URL, run against the state the first i URLs produced; in particular an earlier
failure never aborts or shifts the processing of later URLs. -/
theorem syncLoop_getElem (genID : String → String) (f : FetchTransform)
    (now w hg : Nat) :
    ∀ (urls : List String) (st : Service) (i : Nat) (url : String),
      urls[i]? = some url →
      ((syncLoop genID f now w hg st urls).1)[i]? =
        some (syncStep genID f now w hg
          ((syncLoop genID f now w hg st (urls.take i)).2) url).1 := by
  intro urls
  induction urls with
  | nil => intro st i url h; simp at h
  | cons u rest ih =>
    intro st i url h
    rcases hstep : syncStep genID f now w hg st u with ⟨r, st2⟩
    cases i with
    | zero =>
      simp at h
      subst h
      simp [syncLoop, hstep]
    | succ n =>
      simp at h
      simp only [List.take_succ_cons]
      rcases hloop : syncLoop genID f now w hg st2 rest with ⟨rs, st3⟩
      rcases htake : syncLoop genID f now w hg st2 (rest.take n) with ⟨ts, st4⟩
      have := ih st2 n url h
      rw [hloop, htake] at this
      simp [syncLoop, hstep, hloop, htake]
      simpa using this

/-- C6: the synchronous path returns exactly one result per URL in input order
with a nil batch error; an empty URL list yields the empty result list; a
cached URL answers success with cached true; an uncached URL is resized inline,
success caching the bytes and recording the timestamp, failure leaving the
state untouched and emitting the failure result; and the indexed conjunct shows
each URL is processed independently of any earlier failure. -/
theorem c6_sync_results :
    (∀ (genID : String → String) (f : FetchTransform) (now : Nat) (st : Service)
        (w hg : Nat),
      processResizesSync genID f now st (ResizeRequest.mk false [] w hg) =
        (([], none), st)) ∧
    (∀ (genID : String → String) (f : FetchTransform) (now : Nat) (st : Service)
        (request : ResizeRequest),
      ((processResizesSync genID f now st request).1.1).length =
          request.URLs.length ∧
        (processResizesSync genID f now st request).1.2 = none) ∧
    (∀ (genID : String → String) (f : FetchTransform) (now w hg : Nat)
        (st : Service) (urls : List String) (i : Nat) (url : String),
      urls[i]? = some url →
      ((syncLoop genID f now w hg st urls).1)[i]? =
        some (syncStep genID f now w hg
          ((syncLoop genID f now w hg st (urls.take i)).2) url).1) ∧
    (∀ (genID : String → String) (f : FetchTransform) (now w hg : Nat)
        (st : Service) (url : String),
      alContains st.cache (genKey genID url) = true →
      syncStep genID f now w hg st url =
        (ResizeResult.mk success (newURL (genKey genID url)) true, st)) ∧
    (∀ (genID : String → String) (f : FetchTransform) (now w hg : Nat)
        (st : Service) (url : String) (data : Bytes),
      alContains st.cache (genKey genID url) = false →
      f (ResizeData.mk (genKey genID url) url w hg) = Except.ok data →
      syncStep genID f now w hg st url =
        (ResizeResult.mk success (newURL (genKey genID url)) false,
          { st with
              cache := alInsert st.cache (genKey genID url) (CacheValue.bytes data),
              cacheDeadline := alInsert st.cacheDeadline (genKey genID url) now })) ∧
    (∀ (genID : String → String) (f : FetchTransform) (now w hg : Nat)
        (st : Service) (url : String) (e : GoError),
      alContains st.cache (genKey genID url) = false →
      f (ResizeData.mk (genKey genID url) url w hg) = Except.error e →
      syncStep genID f now w hg st url = (ResizeResult.mk failure "" false, st)) := by
  refine ⟨?_, ?_, ?_, ?_, ?_, ?_⟩
  · intro genID f now st w hg
    rfl
  · intro genID f now st request
    rcases hsl : syncLoop genID f now request.Width request.Height st request.URLs
      with ⟨rs, st2⟩
    have := syncLoop_length genID f now request.Width request.Height
      request.URLs st
    rw [hsl] at this
    constructor
    · simpa [processResizesSync, hsl] using this
    · simp [processResizesSync, hsl]
  · intro genID f now w hg st urls i url h
    exact syncLoop_getElem genID f now w hg urls st i url h
  · intro genID f now w hg st url h
    simp [syncStep, h]
  · intro genID f now w hg st url data h hf
    simp [syncStep, h, resizeAndCache, resizeAndCacheEvents, hf, applyEvents,
      applyEvent]
  · intro genID f now w hg st url e h hf
    simp [syncStep, h, resizeAndCache, resizeAndCacheEvents, hf, applyEvents,
      applyEvent]

/-- C9: an absent async query parameter keeps the zero value, an invalid one is
parsed to false with its error ignored, and only a value ParseBool maps to true
selects the asynchronous branch of ProcessResizes; the last two conjuncts show
the branch actually taken for each flag value. -/
theorem c9_invalid_flag_is_sync :
    (parseAsyncFlag none = false) ∧
    (∀ v, parseBoolGo v = none → parseAsyncFlag (some v) = false) ∧
    (∀ v, parseAsyncFlag (some v) = true ↔ parseBoolGo v = some true) ∧
    (∀ (genID : String → String) (f : FetchTransform) (now : Nat) (st : Service)
        (request : ResizeRequest) (q : Option String),
      parseAsyncFlag q = false →
      ProcessResizes genID f now st { request with Async := parseAsyncFlag q } =
        ((some (processResizesSync genID f now st
            { request with Async := parseAsyncFlag q }).1.1, none),
          (processResizesSync genID f now st
            { request with Async := parseAsyncFlag q }).2,
          ([] : List ResizeData))) ∧
    (∀ (genID : String → String) (f : FetchTransform) (now : Nat) (st : Service)
        (request : ResizeRequest) (q : Option String),
      parseAsyncFlag q = true →
      ProcessResizes genID f now st { request with Async := parseAsyncFlag q } =
        ((some (processResizesAsync genID st
            { request with Async := parseAsyncFlag q }).1.1, none),
          (processResizesAsync genID st
            { request with Async := parseAsyncFlag q }).2)) := by
  refine ⟨rfl, ?_, ?_, ?_, ?_⟩
  · intro v h
    simp [parseAsyncFlag, h]
  · intro v
    rcases hb : parseBoolGo v with _ | b
    · simp [parseAsyncFlag, hb]
    · cases b <;> simp [parseAsyncFlag, hb]
  · intro genID f now st request q hq
    rw [hq]
    rcases hsl : syncLoop genID f now request.Width request.Height st request.URLs
      with ⟨rs, st2⟩
    simp [ProcessResizes, processResizesSync, hsl]
  · intro genID f now st request q hq
    rw [hq]
    rcases hal : asyncLoop genID request.Width request.Height st 0 request.URLs
      with ⟨rs, st2, d⟩
    simp [ProcessResizes, processResizesAsync, hal]

end Resizers
